import Mathlib

/-!
Verification of the Slurm scheduler backend (`reframe/core/schedulers/slurm.py`)
against its natural-language specification.

The Python source is shallowly embedded below.  Strings are modelled by Lean
`String`, but every operation on them (split, strip, startswith, join, drop)
is implemented here on the underlying character list so that all definitions
are executable and kernel-reducible.  External command invocations
(`scontrol`, `squeue`, ...) are modelled as oracle functions passed in as
arguments, so theorems quantify over every possible command output.
Raised Python exceptions are modelled with `Except` / `Option` results.
-/

namespace Slurm

/-! ### Python string primitives (character-list level models) -/

/-- Model of Python `s.startswith(p)`: `p` is a prefix of `s`. -/
def py_startswith (s p : String) : Bool :=
  p.data.isPrefixOf s.data

/-- Model of Python slicing `s[n:]` (ASCII use only in this backend). -/
def py_drop (s : String) (n : Nat) : String :=
  String.mk (s.data.drop n)

/-- Remove trailing whitespace characters from a character list. -/
def rstrip_chars : List Char → List Char
  | [] => []
  | c :: cs =>
    match rstrip_chars cs with
    | [] => if c.isWhitespace then [] else [c]
    | r => c :: r

/-- Model of Python `s.strip()`: drop leading and trailing whitespace. -/
def py_strip (s : String) : String :=
  String.mk (rstrip_chars (s.data.dropWhile Char.isWhitespace))

/-- Split a character list on a separator character; mirrors Python
`str.split(sep)` for a one-character separator (`split_on_char sep [] = [[]]`,
exactly as the Python split of an empty string yields one empty token). -/
def split_on_char (sep : Char) : List Char → List (List Char)
  | [] => [[]]
  | c :: cs =>
    let r := split_on_char sep cs
    if c = sep then [] :: r
    else
      match r with
      | [] => [[c]]
      | g :: gs => (c :: g) :: gs

/-- Model of Python `s.split(sep)` for a one-character separator. -/
def py_split (s : String) (sep : Char) : List String :=
  (split_on_char sep s.data).map String.mk

/-- Model of Python `s.splitlines()` restricted to `\n` separators, which is
the only line separator produced by the wrapped commands. -/
def splitlines (s : String) : List String :=
  match s.data with
  | [] => []
  | _ =>
    let parts := split_on_char '\n' s.data
    (if s.data.getLast? = some '\n' then parts.dropLast else parts).map String.mk

/-- Model of Python `sep.join(xs)`. -/
def py_join (sep : String) : List String → String
  | [] => ""
  | [x] => x
  | x :: xs => x ++ sep ++ py_join sep xs

/-- Model of Python `max` on a non-empty list of naturals (`py_max [] = 0`
is never exercised: the source only calls `max` on non-empty groups). -/
def py_max : List Nat → Nat
  | [] => 0
  | x :: xs => xs.foldl max x

/-- Model of Python `int(s)` on a digit string. -/
def str_to_nat (s : String) : Nat :=
  s.data.foldl (fun a c => a * 10 + (c.toNat - 48)) 0

/-! ### State classifier (`slurm_state_completed` / `slurm_state_pending`) -/

/-- The completion state set of `slurm_state_completed`. -/
def completion_states : List String :=
  ["BOOT_FAIL", "CANCELLED", "COMPLETED", "DEADLINE", "FAILED",
   "NODE_FAIL", "OUT_OF_MEMORY", "PREEMPTED", "TIMEOUT"]

/-- The pending state set of `slurm_state_pending`. -/
def pending_states : List String :=
  ["COMPLETING", "CONFIGURING", "PENDING", "RESV_DEL_HOLD", "REQUEUE_FED",
   "REQUEUE_HOLD", "REQUEUED", "RESIZING", "REVOKED", "SIGNALING",
   "SPECIAL_EXIT", "STAGE_OUT", "STOPPED", "SUSPENDED"]

/-- `slurm_state_completed` from the source: a non-empty state string whose
comma-separated tokens all lie in the completion set.  The empty string is
falsy in Python, giving `False`. -/
def slurm_state_completed (state : String) : Bool :=
  if state ≠ "" then
    (py_split state ',').all (fun s => completion_states.contains s)
  else false

/-- `slurm_state_pending` from the source: a non-empty state string with at
least one comma-separated token in the pending set. -/
def slurm_state_pending (state : String) : Bool :=
  if state ≠ "" then
    (py_split state ',').any (fun s => pending_states.contains s)
  else false

/-! ### Slurm nodes (`_SlurmNode`, `_create_nodes`, `allnodes`) -/

/-- A parsed Slurm node description.  The Python `_SlurmNode` stores sets for
`partitions`, `active_features` and `states`; lists model these sets (only
membership is ever queried). -/
structure SlurmNode where
  name : String
  partitions : List String
  active_features : List String
  states : List String
  descr : String
deriving Repr, DecidableEq

/-- `_SlurmNode.is_down`: true iff the node states intersect
`DOWN, DRAIN, MAINT, NO_RESPOND`. -/
def SlurmNode.is_down (n : SlurmNode) : Bool :=
  ["DOWN", "DRAIN", "MAINT", "NO_RESPOND"].any (fun s => n.states.contains s)

/-- Scan for the first occurrence of `pat` followed by at least one
non-whitespace character, returning that maximal non-whitespace run.
Models the `re.search` of the attribute name, `=`, and a `\S+` group, as
done by `_extract_attribute`. -/
def extract_attr_core (pat : List Char) : List Char → Option (List Char)
  | [] => none
  | c :: cs =>
    if pat.isPrefixOf (c :: cs) then
      let run := ((c :: cs).drop pat.length).takeWhile (fun x => !x.isWhitespace)
      if run.isEmpty then extract_attr_core pat cs else some run
    else extract_attr_core pat cs

/-- `_SlurmNode._extract_attribute` without a separator: the raw matched
value, or `none` when the attribute is absent. -/
def extract_attribute (attr : String) (descr : String) : Option String :=
  (extract_attr_core (attr.data ++ ['=']) descr.data).map String.mk

/-- `_SlurmNode.__init__`: `none` models the `JobError` raised when no
`NodeName` can be extracted; the separated attributes default to empty sets
(`or set()` in the source). -/
def node_from_descr (descr : String) : Option SlurmNode :=
  match extract_attribute "NodeName" descr with
  | none => none
  | some name =>
    some { name := name
           partitions := (match extract_attribute "Partitions" descr with
                          | some v => py_split v ','
                          | none => [])
           active_features := (match extract_attribute "ActiveFeatures" descr with
                               | some v => py_split v ','
                               | none => [])
           states := (match extract_attribute "State" descr with
                      | some v => py_split v '+'
                      | none => [])
           descr := descr }

/-- The loop of `_create_nodes`: build up a set of nodes, suppressing
descriptions that raise (`with suppress(JobError)`).  The Python `set.add`
keeps the existing element on a name collision (node equality and hash are
by name), which the duplicate guard models. -/
def create_nodes_fold (acc : List SlurmNode) : List String → List SlurmNode
  | [] => acc
  | d :: rest =>
    match node_from_descr d with
    | some n =>
      if acc.any (fun m => m.name == n.name) then create_nodes_fold acc rest
      else create_nodes_fold (acc ++ [n]) rest
    | none => create_nodes_fold acc rest

/-- `_create_nodes` from the source. -/
def create_nodes (descrs : List String) : List SlurmNode :=
  create_nodes_fold [] descrs

/-- `SlurmJobScheduler.allnodes`, given the stdout of
`scontrol -a show -o nodes`. -/
def allnodes (scontrol_stdout : String) : List SlurmNode :=
  create_nodes (splitlines scontrol_stdout)

/-! ### Jobs and scheduler bookkeeping -/

/-- An exception stashed on `job.exception` by background polling, as far as
`finished` distinguishes them: `JobBlockedError` is re-raised, any other
`JobError` is swallowed. -/
inductive StoredExc where
  | jobBlocked (msg : String)
  | jobError (msg : String)
deriving Repr, DecidableEq

/-- The client-owned Job value.  Durations are seconds; `tag` models Python
object identity, used for membership in the scheduler job sets.
`state : String` with `""` for "not yet set" (both are falsy in Python and
are treated identically by the state classifiers). -/
structure Job where
  name : Option String
  num_tasks : Option Nat
  num_tasks_per_node : Option Nat
  num_tasks_per_core : Option Nat
  num_tasks_per_socket : Option Nat
  num_cpus_per_task : Option Nat
  sched_partition : Option String
  sched_account : Option String
  sched_nodelist : Option String
  sched_exclude_nodelist : Option String
  sched_reservation : Option String
  sched_exclusive_access : Bool
  sched_access : List String
  use_smt : Option Bool
  time_limit : Option Nat
  max_pending_time : Option Nat
  options : List String
  stdout : Option String
  stderr : Option String
  jobid : Option Nat
  state : String
  exitcode : Option Nat
  nodelist : Option (List String)
  exception : Option StoredExc
  tag : Nat
deriving Repr, DecidableEq

/-- A job with every field unset, used as the base of concrete test jobs. -/
def defaultJob : Job :=
  { name := none, num_tasks := none, num_tasks_per_node := none,
    num_tasks_per_core := none, num_tasks_per_socket := none,
    num_cpus_per_task := none, sched_partition := none, sched_account := none,
    sched_nodelist := none, sched_exclude_nodelist := none,
    sched_reservation := none, sched_exclusive_access := false,
    sched_access := [], use_smt := none, time_limit := none,
    max_pending_time := none, options := [], stdout := none, stderr := none,
    jobid := none, state := "", exitcode := none, nodelist := none,
    exception := none, tag := 0 }

/-! ### Flag extraction (`ArgumentParser.parse_known_args` for one flag pair)

The source parses option lists with `argparse`, which records the last value
given for a flag.  The model covers the forms exercised by the backend:
`-Cval`, `-C val` in one fragment (argparse splits a short option after two
characters), `--flag=val`, and the flag and its value as two separate list
elements.  Two argparse corner cases are modelled conservatively: a flag
whose would-be value starts with `-` and a flag at the end of the list
record no value (real argparse aborts with a parse error there), and long
option abbreviation is not modelled. -/

def last_flag_value (short long : String) : List String → Option String → Option String
  | [], acc => acc
  | [t], acc =>
    if t = short ∨ t = long then acc
    else if py_startswith t (long ++ "=") then some (py_drop t (long.length + 1))
    else if py_startswith t short ∧ t ≠ short then some (py_drop t short.length)
    else acc
  | t :: v :: rest2, acc =>
    if t = short ∨ t = long then
      if py_startswith v "-" then last_flag_value short long (v :: rest2) acc
      else last_flag_value short long rest2 (some v)
    else if py_startswith t (long ++ "=") then
      last_flag_value short long (v :: rest2) (some (py_drop t (long.length + 1)))
    else if py_startswith t short ∧ t ≠ short then
      last_flag_value short long (v :: rest2) (some (py_drop t short.length))
    else last_flag_value short long (v :: rest2) acc

/-! ### Batch-script preamble (`emit_preamble`) -/

/-- The directive marker `self._prefix`. -/
def sbatch_marker : String := "#SBATCH"

/-- `SlurmJobScheduler._format_option`: emit nothing for an unset value,
otherwise the marker, a space, and the formatted option, where the format
string is `before`, the substituted value, then `after`. -/
def format_option (var : Option String) (before after : String) : String :=
  match var with
  | some v => sbatch_marker ++ " " ++ (before ++ (v ++ after))
  | none => ""

/-- `seconds_to_hms` (from `reframe.utility`, not under `src/`).
Modelled from the spec: `--time=H:M:S` derived from the time limit, i.e. the
usual hours/minutes/seconds decomposition. -/
def seconds_to_hms (t : Nat) : Nat × Nat × Nat :=
  (t / 3600, t % 3600 / 60, t % 3600 % 60)

/-- The percent-formatted `H:M:S` time string. -/
def hms_string (t : Nat) : String :=
  toString (seconds_to_hms t).1 ++ ":" ++ toString (seconds_to_hms t).2.1 ++
    ":" ++ toString (seconds_to_hms t).2.2

/-- `SlurmJobScheduler.is_array`: the job options carry `-a` or `--array`
with a truthy value.  (The per-job memoisation in the source does not change
the computed value.) -/
def is_array (job : Job) : Bool :=
  match last_flag_value "-a" "--array" job.options none with
  | some v => v != ""
  | none => false

/-- The skip test applied to both `sched_access` and `options` fragments:
does the stripped fragment start with `-C` or with `--constraint`? -/
def is_constraint_prefixed (opt : String) : Bool :=
  py_startswith (py_strip opt) "-C" || py_startswith (py_strip opt) "--constraint"

/-- The `re.match` against the hash-directive pattern: the fragment starts
with `#` followed by a word character. -/
def hash_directive_match (opt : String) : Bool :=
  match opt.data with
  | '#' :: c :: _ => c.isAlphanum || c = '_'
  | _ => false

/-- The verbatim `sched_access` emission loop: every fragment not starting
(after strip) with `-C`/`--constraint` is emitted with the marker. -/
def access_lines (access : List String) : List String :=
  access.filterMap (fun opt =>
    if is_constraint_prefixed opt then none
    else some (sbatch_marker ++ " " ++ opt))

/-- The constraint values collected for merging: the last `-C` or
`--constraint` value of `sched_access` (stripped), then the last one of
`options` (stripped), each kept only when truthy. -/
def merged_constraints (job : Job) : List String :=
  (match last_flag_value "-C" "--constraint" job.sched_access none with
   | some c => if c ≠ "" then [py_strip c] else []
   | none => []) ++
  (match last_flag_value "-C" "--constraint" job.options none with
   | some c => if c ≠ "" then [py_strip c] else []
   | none => [])

/-- The merged `--constraint` directive (absent when neither source
contributed a constraint). -/
def constraint_lines (job : Job) : List String :=
  match merged_constraints job with
  | [] => []
  | cs => [format_option (some (py_join "&" cs)) "--constraint=" ""]

/-- The text with which every emitted constraint directive line begins. -/
def constraint_marker : String := "#SBATCH --constraint="

/-- Does a preamble line begin with `#SBATCH --constraint=`?  This is what
the claim names a `--constraint=` directive: it denotes: Slurm reads any such
line of the batch script as a constraint directive. -/
def starts_with_constraint (l : String) : Bool :=
  py_startswith l constraint_marker

/-- The `--hint` value derived from `use_smt`. -/
def hint_value (job : Job) : Option String :=
  match job.use_smt with
  | none => none
  | some b => some (if b then "multithread" else "nomultithread")

/-- The final `options` emission loop: constraints are skipped (already
merged); fragments matching `#\w+` go in verbatim; everything else gets the
marker. -/
def option_lines (opts : List String) : List String :=
  opts.filterMap (fun opt =>
    if is_constraint_prefixed opt then none
    else if hash_directive_match opt then some opt
    else some (sbatch_marker ++ " " ++ opt))

/-- The `--nodes` block of `emit_preamble`.  A `none` result models the
uncaught Python `TypeError` or `ZeroDivisionError` raised by
`job.num_tasks // job.num_tasks_per_node` when the `use_nodes_option`
setting is active and a field is unset or the divisor is zero. -/
def nodes_lines (use_nodes_opt : Bool) (num_tasks num_tasks_per_node : Option Nat) :
    Option (List String) :=
  if use_nodes_opt then
    match num_tasks, num_tasks_per_node with
    | some nt, some ntpn =>
      if ntpn = 0 then none
      else some [format_option (some (toString (nt / ntpn))) "--nodes=" ""]
    | _, _ => none
  else some []

/-- The first block of `emit_preamble` (job shape, paths, time limit,
exclusive access, `--nodes`), propagating a failed `--nodes` block. -/
def preamble_base (use_nodes_opt : Bool) (job : Job) : Option (List String) :=
  let arr_suffix := if is_array job then "_%a" else ""
  let first : List String := [
    format_option job.name "--job-name=\"" "\"",
    format_option (job.num_tasks.map toString) "--ntasks=" "",
    format_option (job.num_tasks_per_node.map toString) "--ntasks-per-node=" "",
    format_option (job.num_tasks_per_core.map toString) "--ntasks-per-core=" "",
    format_option (job.num_tasks_per_socket.map toString) "--ntasks-per-socket=" "",
    format_option (job.num_cpus_per_task.map toString) "--cpus-per-task=" "",
    format_option job.sched_partition "--partition=" "",
    format_option job.sched_account "--account=" "",
    format_option job.sched_nodelist "--nodelist=" "",
    format_option job.sched_exclude_nodelist "--exclude=" "",
    format_option job.sched_reservation "--reservation=" "",
    format_option job.stdout "--output=" arr_suffix,
    format_option job.stderr "--error=" arr_suffix]
  let time_part : List String :=
    match job.time_limit with
    | some t => [format_option (some (hms_string t)) "--time=" ""]
    | none => []
  let excl_part : List String :=
    if job.sched_exclusive_access then [sbatch_marker ++ " " ++ "--exclusive"]
    else []
  match nodes_lines use_nodes_opt job.num_tasks job.num_tasks_per_node with
  | none => none
  | some np => some (first ++ time_part ++ excl_part ++ np)

/-- `SlurmJobScheduler.emit_preamble`: the ordered directive lines with
empty strings filtered out (`filter(None, preamble)`). -/
def emit_preamble (use_nodes_opt : Bool) (job : Job) : Option (List String) :=
  match preamble_base use_nodes_opt job with
  | none => none
  | some base =>
    some ((base
      ++ access_lines job.sched_access
      ++ constraint_lines job
      ++ [format_option (hint_value job) "--hint=" ""]
      ++ option_lines job.options).filter (fun l => l != ""))

/-! ### Submission (`submit`) -/

/-- The literal scanned for by the `re.search` of `Submitted batch job`
followed by a digit group. -/
def submitted_marker : List Char := "Submitted batch job ".data

/-- Convert a digit run to a natural number (`int` on the matched group). -/
def digits_to_nat (ds : List Char) : Nat :=
  ds.foldl (fun a c => a * 10 + (c.toNat - 48)) 0

/-- Try the job-id pattern at the head of `cs`: the marker followed by at
least one digit; the greedy `\d+` takes the maximal digit run. -/
def match_jobid_at (cs : List Char) : Option Nat :=
  if submitted_marker.isPrefixOf cs then
    let ds := (cs.drop submitted_marker.length).takeWhile Char.isDigit
    if ds.isEmpty then none else some (digits_to_nat ds)
  else none

/-- `re.search`: the match at the leftmost possible start position. -/
def search_jobid : List Char → Option Nat
  | [] => none
  | c :: cs =>
    match match_jobid_at (c :: cs) with
    | some n => some n
    | none => search_jobid cs

/-- `SlurmJobScheduler.submit`, given the stdout of `sbatch` and the current
time `now` (seconds).  On success it returns the updated job together with
the new `update_state_count` and `submit_time` entries; the error case
models the raised `JobError` (the *SubmissionFailure* kind of the spec),
which leaves
the job untouched. -/
def submit (job : Job) (sbatch_stdout : String) (now : Nat) :
    Except String (Job × Nat × Nat) :=
  match search_jobid sbatch_stdout.data with
  | some id => .ok ({ job with jobid := some id }, 0, now)
  | none => .error "could not retrieve the job id of the submitted job"

/-! ### Pending-reason cancellation (`_check_and_cancel`, `_cancel_if_blocked`) -/

/-- The base cancel-reason list from `__init__`. -/
def cancel_reasons_base : List String :=
  ["FrontEndDown", "Licenses", "NodeDown", "PartitionDown",
   "PartitionInactive", "PartitionNodeLimit", "QOSJobLimit",
   "QOSResourceLimit", "QOSUsageThreshold"]

/-- The configured cancel-reason list: `ReqNodeNotAvail` is appended unless
`ignore_reqnodenotavail` is set. -/
def cancel_reasons (ignore_reqnodenotavail : Bool) : List String :=
  if ignore_reqnodenotavail then cancel_reasons_base
  else cancel_reasons_base ++ ["ReqNodeNotAvail"]

/-- The split of `reason_descr` at the first comma (maxsplit 1), with the
`ValueError` handler: no comma gives the whole string and no details. -/
def split_first_comma (s : String) : String × Option String :=
  match split_on_char ',' s.data with
  | [] => (s, none)
  | [_] => (s, none)
  | g :: gs => (String.mk g, some (String.mk (List.intercalate [','] gs)))

/-- The `re.match` of the literal `UnavailableNodes:` followed by an
optional `\S+` group, applied to the stripped details:
`none` when the stripped details do not start with the literal, otherwise
the (possibly empty) maximal non-whitespace run after the colon.  An absent
group and an empty one are both falsy in the source, so both map to
`some ""`. -/
def parse_unavailable_nodes (details : String) : Option String :=
  let t := py_strip details
  if py_startswith t "UnavailableNodes:" then
    some (String.mk ((t.data.drop 17).takeWhile (fun c => !c.isWhitespace)))
  else none

/-- Outcome of `_check_and_cancel` on one reason line. -/
inductive CheckResult where
  | noCancel
  | blocked (msg : String)
deriving Repr, DecidableEq

/-- The fixed part of the `JobBlockedError` message. -/
def blocked_msg_start : String :=
  "job cancelled because it was blocked due to a perhaps non-recoverable reason: "

/-- The comma, space and details appended to the message when details are
present (the source tests that the details are not `None`). -/
def details_suffix : Option String → String
  | some x => ", " ++ x
  | none => ""

/-- `SlurmJobScheduler._check_and_cancel`.  `getNodes` is the oracle for
`scontrol -a show -o node <names>` (`_get_nodes_by_name`).  A `blocked`
result means `cancel(job)` was invoked and `JobBlockedError` raised with
that message. -/
def check_and_cancel (reasons : List String) (getNodes : String → List SlurmNode)
    (reason_descr : String) : CheckResult :=
  let rd := split_first_comma reason_descr
  let reason := rd.1
  let details := rd.2
  if reasons.contains reason then
    let transient : Bool :=
      if reason == "ReqNodeNotAvail" then
        match details with
        | some d =>
          if d != "" then
            match parse_unavailable_nodes d with
            | some names =>
              if names != "" then !((getNodes names).any SlurmNode.is_down)
              else true
            | none => false
          else false
        | none => false
      else false
    if transient then .noCancel
    else .blocked (blocked_msg_start ++ reason ++ details_suffix details)
  else .noCancel

/-- The loop of `_cancel_if_blocked` over the squeue reason lines: the first
raised `JobBlockedError` aborts it. -/
def first_blocked (reasons : List String) (getNodes : String → List SlurmNode) :
    List String → Option String
  | [] => none
  | l :: ls =>
    match check_and_cancel reasons getNodes l with
    | .blocked m => some m
    | .noCancel => first_blocked reasons getNodes ls

/-- `SlurmJobScheduler._cancel_if_blocked`, given the stdout of
`squeue -h -j <id> -o %r`.  `some msg` models the raised `JobBlockedError`. -/
def cancel_if_blocked (reasons : List String) (getNodes : String → List SlurmNode)
    (is_cancelling : Bool) (squeue_stdout : String) (state : String) : Option String :=
  if is_cancelling || !slurm_state_pending state then none
  else if squeue_stdout = "" then none
  else first_blocked reasons getNodes (splitlines squeue_stdout)

/-! ### Accounting poll (`SlurmJobScheduler.poll`) -/

/-- One line of sacct output matched by the poll regex
`jobid|state|exitcode:signal|nodespec`. -/
structure SacctRecord where
  jobid : String
  state : String
  exitcode : Nat
  signal : Nat
  nodespec : String
deriving Repr, DecidableEq

/-- `SlurmJobScheduler._set_nodelist`: only the first truthy nodespec that
is not `None assigned` is expanded and stored. -/
def set_nodelist (getNodes : String → List SlurmNode) (job : Job)
    (nodespec : String) : Job :=
  if job.nodelist.isSome then job
  else if nodespec != "" && nodespec != "None assigned" then
    { job with nodelist := some ((getNodes nodespec).map SlurmNode.name) }
  else job

/-- The per-job body of `SlurmJobScheduler.poll` once the sacct lines have
been grouped by base job id: `info` is the group for this job (empty models
the `KeyError` / `continue` path), `u` the post-increment
`update_state_count`, and `squeue_out` the oracle stdout consumed by
`_cancel_if_blocked` when `u` is a multiple of `SACCT_SQUEUE_RATIO = 10`.
An `.error (msg, j)` result is a `JobBlockedError` escaping the poll after
the job state was already reassigned. -/
def poll_update (reasons : List String) (getNodes : String → List SlurmNode)
    (cancelling : Bool) (squeue_out : String) (u : Nat)
    (job : Job) (info : List SacctRecord) : Except (String × Job) Job :=
  match info with
  | [] => .ok job
  | _ :: _ =>
    let st := py_join "," (info.map SacctRecord.state)
    let j1 := { job with state := st }
    match (if u % 10 == 0 then
             cancel_if_blocked reasons getNodes cancelling squeue_out st
           else none) with
    | some msg => .error (msg, j1)
    | none =>
      let j2 := if slurm_state_completed st then
          { j1 with exitcode := some (py_max (info.map SacctRecord.exitcode)) }
        else j1
      .ok (set_nodelist getNodes j2 (py_join "," (info.map SacctRecord.nodespec)))

/-! ### Waiting and `finished` -/

/-- Python truthiness of `job.max_pending_time` (a zero duration is falsy). -/
def mpt_truthy : Option Nat → Bool
  | none => false
  | some t => t != 0

/-- Outcome of the `max_pending_time` guard inside the polling loop of
`wait`: `timedOut` means `cancel(job)` ran and a `JobError` carrying
`maximum pending time exceeded` was raised. -/
inductive WaitStep where
  | timedOut
  | keepWaiting
deriving Repr, DecidableEq

/-- The `max_pending_time` guard executed by each iteration of the `wait`
loop, with `elapsed` the wall-clock seconds since `submit_time[job]`. -/
def wait_loop_check (job : Job) (elapsed : Nat) : WaitStep :=
  if mpt_truthy job.max_pending_time && slurm_state_pending job.state then
    if decide (job.max_pending_time.getD 0 ≤ elapsed) then .timedOut
    else .keepWaiting
  else .keepWaiting

/-- Outcome of `SlurmJobScheduler.finished`. -/
inductive FinishedOutcome where
  | raisedBlocked (msg : String)
  | notFinished
  | timedOut
  | result (done : Bool)
deriving Repr, DecidableEq

/-- `SlurmJobScheduler.finished`: re-raise a stashed `JobBlockedError`,
swallow any other stashed `JobError` (returning `False`), then apply the
`max_pending_time` guard (`timedOut` models `cancel` plus the raised
`JobError` carrying `maximum pending time exceeded`), and otherwise report the
completion classifier. -/
def finished (job : Job) (elapsed : Nat) : FinishedOutcome :=
  match job.exception with
  | some (.jobBlocked m) => .raisedBlocked m
  | some (.jobError _) => .notFinished
  | none =>
    if mpt_truthy job.max_pending_time && slurm_state_pending job.state then
      if decide (job.max_pending_time.getD 0 ≤ elapsed) then .timedOut
      else .result (slurm_state_completed job.state)
    else .result (slurm_state_completed job.state)

/-! ### Squeue backend (`SqueueJobScheduler`) -/

/-- One line of squeue output matched by `jobid|state|nodespec|reason`. -/
structure SqueueRecord where
  jobid : String
  state : String
  nodespec : String
  reason : String
deriving Repr, DecidableEq

/-- `int(s.group('jobid').split('_')[0])`: the base id of a (possibly
array-notation) job id. -/
def base_id (s : String) : Nat :=
  str_to_nat ((py_split s '_').headD "")

/-- The squeue scheduler job sets: `is_cancelling` from the base `cancel`
and `cancelled` from the squeue override. -/
structure SqueueSets where
  is_cancelling : List Nat
  cancelled : List Nat
deriving Repr, DecidableEq

/-- `SqueueJobScheduler.cancel`: the base class issues `scancel` and records
the job in `is_cancelling`; the override additionally records it in
`cancelled`. -/
def squeue_cancel (s : SqueueSets) (tag : Nat) : SqueueSets :=
  { is_cancelling := tag :: s.is_cancelling, cancelled := tag :: s.cancelled }

/-- The per-job body of `SqueueJobScheduler.poll` once the squeue lines have
been parsed: a job with no matching line gets a synthesized terminal state
(`CANCELLED` when previously cancelled) and an exit code of 0 only if still
unset; otherwise the states are joined and, when not cancelling and not
pending, every reason column goes through `_check_and_cancel`. -/
def squeue_poll_job (reasons : List String) (getNodes : String → List SlurmNode)
    (is_cancelling cancelled : List Nat) (records : List SqueueRecord)
    (job : Job) : Except (String × Job) Job :=
  match records.filter (fun r => job.jobid == some (base_id r.jobid)) with
  | [] =>
    let j1 := { job with
      state := if cancelled.contains job.tag then "CANCELLED" else "COMPLETED" }
    .ok (match j1.exitcode with
         | none => { j1 with exitcode := some 0 }
         | some _ => j1)
  | ms =>
    let st := py_join "," (ms.map SqueueRecord.state)
    let j1 := { job with state := st }
    if !(is_cancelling.contains job.tag) && !(slurm_state_pending st) then
      match first_blocked reasons getNodes (ms.map SqueueRecord.reason) with
      | some m => .error (m, j1)
      | none => .ok j1
    else .ok j1

/-! ### Node filtering (`filternodes`) -/

/-- The parsed node-restriction options. -/
structure FilterArgs where
  reservation : Option String
  partition : Option String
  nodelist : Option String
  constraint : Option String
  exclude : Option String
deriving Repr, DecidableEq

/-- The argparse long options registered by `filternodes`. -/
def filter_long_flags : List (String × String) :=
  [("--reservation", "reservation"), ("--partition", "partition"),
   ("--nodelist", "nodelist"), ("--constraint", "constraint"),
   ("--exclude", "exclude")]

/-- The argparse short options registered by `filternodes`. -/
def filter_short_flags : List (String × String) :=
  [("-p", "partition"), ("-w", "nodelist"), ("-C", "constraint"),
   ("-x", "exclude")]

/-- Record a parsed value in the slot for flag `f`. -/
def set_filter_arg (a : FilterArgs) (f : String) (v : String) : FilterArgs :=
  if f = "reservation" then { a with reservation := some v }
  else if f = "partition" then { a with partition := some v }
  else if f = "nodelist" then { a with nodelist := some v }
  else if f = "constraint" then { a with constraint := some v }
  else if f = "exclude" then { a with exclude := some v }
  else a

/-- Classify one option token: a recognized flag with an attached value
(`--flag=v` or short-flag concatenation) or one expecting the next token. -/
def token_flag_value (t : String) : Option (String × Option String) :=
  match filter_long_flags.find? (fun p => t == p.1) with
  | some p => some (p.2, none)
  | none =>
    match filter_long_flags.find? (fun p => py_startswith t (p.1 ++ "=")) with
    | some p => some (p.2, some (py_drop t (p.1.length + 1)))
    | none =>
      match filter_short_flags.find? (fun p => t == p.1) with
      | some p => some (p.2, none)
      | none =>
        match filter_short_flags.find? (fun p => py_startswith t p.1) with
        | some p => some (p.2, some (py_drop t 2))
        | none => none

/-- Last-wins parse of the combined option list (the same conservative
argparse model as `last_flag_value`, for the five registered flags). -/
def parse_filter_args : List String → FilterArgs → FilterArgs
  | [], a => a
  | [t], a =>
    match token_flag_value t with
    | some (f, some v) => set_filter_arg a f v
    | some (_, none) => a
    | none => a
  | t :: v :: rest2, a =>
    match token_flag_value t with
    | some (f, some w) => parse_filter_args (v :: rest2) (set_filter_arg a f w)
    | some (f, none) =>
      if py_startswith v "-" then parse_filter_args (v :: rest2) a
      else parse_filter_args rest2 (set_filter_arg a f v)
    | none => parse_filter_args (v :: rest2) a

/-- The combined option list examined by `filternodes`: `sched_access`,
`options`, then synthetic options for each truthy scheduling-axis field. -/
def filternodes_options (job : Job) : List String :=
  job.sched_access ++ job.options
    ++ (match job.sched_partition with
        | some p => if p ≠ "" then ["--partition=" ++ p] else []
        | none => [])
    ++ (match job.sched_account with
        | some p => if p ≠ "" then ["--account=" ++ p] else []
        | none => [])
    ++ (match job.sched_nodelist with
        | some p => if p ≠ "" then ["--nodelist=" ++ p] else []
        | none => [])
    ++ (match job.sched_exclude_nodelist with
        | some p => if p ≠ "" then ["--exclude=" ++ p] else []
        | none => [])
    ++ (match job.sched_reservation with
        | some p => if p ≠ "" then ["--reservation=" ++ p] else []
        | none => [])

/-- Is a node with this name in the set?  Python node sets compare and hash
by name. -/
def node_name_mem (ns : List SlurmNode) (n : SlurmNode) : Bool :=
  ns.any (fun m => m.name == n.name)

/-- The reservation intersection step (`nodes &= _get_reservation_nodes`). -/
def filter_step_reservation (getRes : String → List SlurmNode)
    (res : Option String) (nodes : List SlurmNode) : List SlurmNode :=
  match res with
  | some r =>
    if r ≠ "" then nodes.filter (node_name_mem (getRes (py_strip r)))
    else nodes
  | none => nodes

/-- The partition filter step: the required partitions (or the default
partition when no option was given) must all be carried by the node. -/
def filter_step_partitions (defPart : Option String) (part : Option String)
    (nodes : List SlurmNode) : List SlurmNode :=
  let required : List String :=
    match part with
    | some p =>
      if p ≠ "" then py_split (py_strip p) ','
      else match defPart with
           | some d => [d]
           | none => []
    | none =>
      match defPart with
      | some d => [d]
      | none => []
  nodes.filter (fun n => required.all (fun p => n.partitions.contains p))

/-- The constraint filter step: all `&`-separated features must be active. -/
def filter_step_constraints (constr : Option String)
    (nodes : List SlurmNode) : List SlurmNode :=
  match constr with
  | some c =>
    if c ≠ "" then
      nodes.filter (fun n =>
        (py_split (py_strip c) '&').all (fun f => n.active_features.contains f))
    else nodes
  | none => nodes

/-- The nodelist intersection step (`nodes &= _get_nodes_by_name`). -/
def filter_step_nodelist (getByName : String → List SlurmNode)
    (w : Option String) (nodes : List SlurmNode) : List SlurmNode :=
  match w with
  | some s =>
    if s ≠ "" then nodes.filter (node_name_mem (getByName (py_strip s)))
    else nodes
  | none => nodes

/-- The exclusion step (`nodes -= _get_nodes_by_name`). -/
def filter_step_exclude (getByName : String → List SlurmNode)
    (x : Option String) (nodes : List SlurmNode) : List SlurmNode :=
  match x with
  | some s =>
    if s ≠ "" then nodes.filter (fun n => !(node_name_mem (getByName (py_strip s)) n))
    else nodes
  | none => nodes

/-- The all-unset `FilterArgs`. -/
def empty_filter_args : FilterArgs :=
  { reservation := none, partition := none, nodelist := none,
    constraint := none, exclude := none }

/-- `SlurmJobScheduler.filternodes`.  `getRes` is the oracle for
`_get_reservation_nodes`, `getByName` for `_get_nodes_by_name`, and
`defPart` for `_get_default_partition`; the steps run in source order:
reservation, partitions, constraints, nodelist, exclude. -/
def filternodes (getRes getByName : String → List SlurmNode)
    (defPart : Option String) (job : Job) (nodes : List SlurmNode) :
    List SlurmNode :=
  let args := parse_filter_args (filternodes_options job) empty_filter_args
  filter_step_exclude getByName args.exclude
    (filter_step_nodelist getByName args.nodelist
      (filter_step_constraints args.constraint
        (filter_step_partitions defPart args.partition
          (filter_step_reservation getRes args.reservation nodes))))

end Slurm

namespace Slurm

/-! ### Claim theorems -/

/-- C1: `slurm_state_completed s` is true iff `s` is non-empty and every
comma-separated token of `s` lies in the completion-state set;
`slurm_state_pending s` is true iff `s` is non-empty and some comma-separated
token lies in the pending-state set; both classifiers return false on the
empty string. -/
theorem slurm_state_classifier_correct (s : String) :
    (slurm_state_completed s = true ↔
      s ≠ "" ∧ ∀ t ∈ py_split s ',', t ∈ completion_states) ∧
    (slurm_state_pending s = true ↔
      s ≠ "" ∧ ∃ t ∈ py_split s ',', t ∈ pending_states) ∧
    slurm_state_completed "" = false ∧ slurm_state_pending "" = false := by
  refine ⟨?_, ?_, by decide, by decide⟩
  · by_cases hs : s = ""
    · subst hs; simp [slurm_state_completed]
    · simp [slurm_state_completed, hs, List.all_eq_true, List.elem_iff]
  · by_cases hs : s = ""
    · subst hs; simp [slurm_state_pending]
    · simp [slurm_state_pending, hs, List.any_eq_true, List.elem_iff]

/-- C1 witness: the classifier theorem evaluated at concrete states. -/
theorem slurm_state_classifier_correct_witness :
    slurm_state_completed "COMPLETED,FAILED" = true ∧
    slurm_state_pending "" = false :=
  ⟨(slurm_state_classifier_correct "COMPLETED,FAILED").1.mpr
    ⟨by decide, by decide⟩,
   (slurm_state_classifier_correct "").2.2.2⟩

/-! #### Shared helper lemmas -/

theorem isPrefixOf_true_iff {α : Type} [BEq α] [LawfulBEq α]
    {l₁ l₂ : List α} : l₁.isPrefixOf l₂ = true ↔ l₁ <+: l₂ :=
  List.isPrefixOf_iff_prefix

theorem prefix_total_of_common {α : Type} {l₁ l₂ l₃ : List α}
    (h₁ : l₁ <+: l₃) (h₂ : l₂ <+: l₃) : l₁ <+: l₂ ∨ l₂ <+: l₁ :=
  List.prefix_or_prefix_of_prefix h₁ h₂

theorem nil_prefix_of {α : Type} {l : List α} : [] <+: l :=
  List.nil_prefix

theorem subset_of_filter {α : Type} (p : α → Bool) (l : List α) :
    l.filter p ⊆ l :=
  (List.filter_sublist l).subset

theorem filter_step_reservation_subset (g : String → List SlurmNode)
    (r : Option String) (ns : List SlurmNode) :
    filter_step_reservation g r ns ⊆ ns := by
  unfold filter_step_reservation
  cases r with
  | none => exact fun _ h => h
  | some s =>
    dsimp only
    split
    · exact subset_of_filter _ _
    · exact fun _ h => h

theorem filter_step_partitions_subset (dp : Option String) (p : Option String)
    (ns : List SlurmNode) : filter_step_partitions dp p ns ⊆ ns := by
  unfold filter_step_partitions
  exact subset_of_filter _ _

theorem filter_step_constraints_subset (c : Option String)
    (ns : List SlurmNode) : filter_step_constraints c ns ⊆ ns := by
  unfold filter_step_constraints
  cases c with
  | none => exact fun _ h => h
  | some s =>
    dsimp only
    split
    · exact subset_of_filter _ _
    · exact fun _ h => h

theorem filter_step_nodelist_subset (g : String → List SlurmNode)
    (w : Option String) (ns : List SlurmNode) :
    filter_step_nodelist g w ns ⊆ ns := by
  unfold filter_step_nodelist
  cases w with
  | none => exact fun _ h => h
  | some s =>
    dsimp only
    split
    · exact subset_of_filter _ _
    · exact fun _ h => h

theorem filter_step_exclude_subset (g : String → List SlurmNode)
    (x : Option String) (ns : List SlurmNode) :
    filter_step_exclude g x ns ⊆ ns := by
  unfold filter_step_exclude
  cases x with
  | none => exact fun _ h => h
  | some s =>
    dsimp only
    split
    · exact subset_of_filter _ _
    · exact fun _ h => h

/-- C8: the node set returned by `filternodes` is a subset of the candidate
set, and so is the output of each individual filter step (reservation,
partitions, constraints, nodelist, exclude) relative to its own input,
whatever the external `scontrol` queries (the oracles) return. -/
theorem filternodes_subset (getRes getByName : String → List SlurmNode)
    (defPart : Option String) (job : Job) (nodes : List SlurmNode) :
    filternodes getRes getByName defPart job nodes ⊆ nodes ∧
    (∀ r ns, filter_step_reservation getRes r ns ⊆ ns) ∧
    (∀ dp p ns, filter_step_partitions dp p ns ⊆ ns) ∧
    (∀ c ns, filter_step_constraints c ns ⊆ ns) ∧
    (∀ w ns, filter_step_nodelist getByName w ns ⊆ ns) ∧
    (∀ x ns, filter_step_exclude getByName x ns ⊆ ns) := by
  refine ⟨?_, fun r ns => filter_step_reservation_subset getRes r ns,
    fun dp p ns => filter_step_partitions_subset dp p ns,
    fun c ns => filter_step_constraints_subset c ns,
    fun w ns => filter_step_nodelist_subset getByName w ns,
    fun x ns => filter_step_exclude_subset getByName x ns⟩
  unfold filternodes
  intro a ha
  exact filter_step_reservation_subset getRes _ _
    (filter_step_partitions_subset _ _ _
      (filter_step_constraints_subset _ _
        (filter_step_nodelist_subset getByName _ _
          (filter_step_exclude_subset getByName _ _ ha))))

/-- C8 witness: the subset theorem applied at a concrete job and node set. -/
theorem filternodes_subset_witness :
    filternodes (fun _ => []) (fun _ => []) none defaultJob
      [{ name := "n1", partitions := [], active_features := [],
         states := [], descr := "" }] ⊆
      [{ name := "n1", partitions := [], active_features := [],
         states := [], descr := "" }] :=
  (filternodes_subset (fun _ => []) (fun _ => []) none defaultJob
    [{ name := "n1", partitions := [], active_features := [],
       states := [], descr := "" }]).1

theorem mem_create_nodes_fold_of_mem (descrs : List String)
    (acc : List SlurmNode) (m : SlurmNode) (hm : m ∈ acc) :
    m ∈ create_nodes_fold acc descrs := by
  induction descrs generalizing acc with
  | nil => exact hm
  | cons d rest ih =>
    unfold create_nodes_fold
    cases hnd : node_from_descr d with
    | none => exact ih acc hm
    | some n =>
      dsimp only
      split
      · exact ih acc hm
      · exact ih (acc ++ [n]) (List.mem_append_left _ hm)

theorem create_nodes_fold_name_mem (descrs : List String)
    (acc : List SlurmNode) (d : String) (n : SlurmNode)
    (hd : d ∈ descrs) (hn : node_from_descr d = some n) :
    ∃ m ∈ create_nodes_fold acc descrs, m.name = n.name := by
  induction descrs generalizing acc with
  | nil => cases hd
  | cons d0 rest ih =>
    rcases List.mem_cons.mp hd with rfl | hd'
    · unfold create_nodes_fold
      rw [hn]
      dsimp only
      split
      · next hdup =>
        rcases List.any_eq_true.mp hdup with ⟨m, hm, hbeq⟩
        exact ⟨m, mem_create_nodes_fold_of_mem rest acc m hm,
          eq_of_beq hbeq⟩
      · exact ⟨n, mem_create_nodes_fold_of_mem rest (acc ++ [n]) n
          (List.mem_append_right _ (List.mem_singleton.mpr rfl)), rfl⟩
    · unfold create_nodes_fold
      cases hnd : node_from_descr d0 with
      | none => exact ih acc hd'
      | some n0 =>
        dsimp only
        split
        · exact ih acc hd'
        · exact ih (acc ++ [n0]) hd'

/-- C9 counterexample: the stdout `"NodeName=n1 State=IDLE\n\n"` consists of
two description lines, but the second line (`""`) yields no node at all
(`_SlurmNode.__init__` raises `JobError`, which `_create_nodes`
suppresses), so the returned collection does not contain a node
constructed from each of the lines. -/
theorem allnodes_misses_unparsable_line :
    ¬ (∀ d ∈ splitlines "NodeName=n1 State=IDLE\n\n",
        ∃ n, node_from_descr d = some n ∧
          ∃ m ∈ allnodes "NodeName=n1 State=IDLE\n\n", m.name = n.name) := by
  intro h
  have hmem : "" ∈ splitlines "NodeName=n1 State=IDLE\n\n" := by decide
  rcases h "" hmem with ⟨n, hn, -⟩
  have : node_from_descr "" = none := by decide
  rw [this] at hn
  cases hn

/-- C9 (amended): `allnodes` parses every *parsable* line of the `scontrol`
output into a node of the returned collection: for every line of the stdout
from which a node can be constructed (a `NodeName` attribute is present),
the returned collection contains a node of that name.  Lines that fail to
parse are skipped (`with suppress(JobError)`), so they contribute
nothing. -/
theorem allnodes_contains_parsable_lines (stdout : String) (d : String)
    (n : SlurmNode) (hd : d ∈ splitlines stdout)
    (hn : node_from_descr d = some n) :
    ∃ m ∈ allnodes stdout, m.name = n.name :=
  create_nodes_fold_name_mem (splitlines stdout) [] d n hd hn

/-- C9 witness: a concrete one-line stdout produces a node named `n1`. -/
theorem allnodes_contains_parsable_lines_witness :
    ∃ m ∈ allnodes "NodeName=n1 State=IDLE", m.name = "n1" :=
  allnodes_contains_parsable_lines "NodeName=n1 State=IDLE"
    "NodeName=n1 State=IDLE"
    { name := "n1", partitions := [], active_features := [],
      states := ["IDLE"], descr := "NodeName=n1 State=IDLE" }
    (by decide) (by decide)

/-- C3 counterexample: a job in state `RUNNING` with `max_pending_time = 1`
and `elapsed = 5`.  The pending time is exceeded and both the `wait` loop
body and `finished` do run (the state is not completed and no exception is
stashed), yet neither cancels the job nor raises: the guard in the source
additionally requires `slurm_state_pending(job.state)`, which `RUNNING`
does not satisfy. -/
theorem max_pending_time_not_enforced_when_not_pending :
    ({ defaultJob with state := "RUNNING", max_pending_time := some 1 }
        : Job).max_pending_time = some 1 ∧
    1 ≤ 5 ∧
    slurm_state_completed "RUNNING" = false ∧
    ({ defaultJob with state := "RUNNING", max_pending_time := some 1 }
        : Job).exception = none ∧
    wait_loop_check
      { defaultJob with state := "RUNNING", max_pending_time := some 1 } 5 =
      .keepWaiting ∧
    finished
      { defaultJob with state := "RUNNING", max_pending_time := some 1 } 5 =
      .result false := by
  refine ⟨rfl, by decide, by decide, rfl, rfl, rfl⟩

/-- C3 (amended): for every job whose `max_pending_time` is set (to a
non-zero duration, since a zero `timedelta` is falsy) *and whose state is
classified as pending*, if the elapsed wall-clock time since submission is
at least `max_pending_time` when the `wait` loop body or `finished` runs,
then the operation cancels the job and raises the `TimedOut` error
(`maximum pending time exceeded`), modelled by the `timedOut` outcome. -/
theorem max_pending_time_enforced (job : Job) (elapsed t : Nat)
    (h1 : job.max_pending_time = some t) (h2 : t ≠ 0)
    (h3 : slurm_state_pending job.state = true) (h4 : t ≤ elapsed) :
    wait_loop_check job elapsed = .timedOut ∧
    (job.exception = none → finished job elapsed = .timedOut) := by
  have htr : mpt_truthy job.max_pending_time = true := by
    rw [h1]; simpa [mpt_truthy] using h2
  have hle : decide (job.max_pending_time.getD 0 ≤ elapsed) = true := by
    rw [h1]; simpa using h4
  constructor
  · unfold wait_loop_check
    rw [htr, h3, hle]
    rfl
  · intro hexc
    unfold finished
    rw [hexc]
    rw [htr, h3, hle]
    rfl

/-- C3 witness: a pending job with `max_pending_time = 3` and ten elapsed
seconds is cancelled and times out in both operations. -/
theorem max_pending_time_enforced_witness :
    wait_loop_check
      { defaultJob with state := "PENDING", max_pending_time := some 3 } 10 =
      .timedOut ∧
    finished
      { defaultJob with state := "PENDING", max_pending_time := some 3 } 10 =
      .timedOut := by
  have h := max_pending_time_enforced
    { defaultJob with state := "PENDING", max_pending_time := some 3 }
    10 3 rfl (by decide) (by decide) (by decide)
  exact ⟨h.1, h.2 rfl⟩

/-- C6: in the poll of the squeue backend, a polled job whose base job id matches
no line of the squeue output gets `state = "CANCELLED"` exactly when cancel
was previously invoked on it (it is in the `cancelled` set) and
`"COMPLETED"` otherwise, and `exitcode` becomes `0` only when it was unset
(`Option.getD` keeps any earlier value).  Moreover `cancel` always places
the job in the `cancelled` set. -/
theorem squeue_poll_unmatched_job (reasons : List String)
    (getNodes : String → List SlurmNode) (is_cancelling cancelled : List Nat)
    (records : List SqueueRecord) (job : Job)
    (hnomatch : ∀ r ∈ records, (job.jobid == some (base_id r.jobid)) = false) :
    squeue_poll_job reasons getNodes is_cancelling cancelled records job =
      .ok { job with
        state := if cancelled.contains job.tag then "CANCELLED" else "COMPLETED",
        exitcode := some (job.exitcode.getD 0) } ∧
    ∀ s : SqueueSets, (squeue_cancel s job.tag).cancelled.contains job.tag = true := by
  constructor
  · have hfil : records.filter (fun r => job.jobid == some (base_id r.jobid)) = [] :=
      List.filter_eq_nil_iff.mpr (fun r hr => by simp [hnomatch r hr])
    unfold squeue_poll_job
    rw [hfil]
    cases job with
    | mk nme nt ntpn ntpc ntps ncpt sp sa sn sen sr sea sacc smt tl mpt
         opts sout serr jid st ec nl exc tg =>
      cases ec with
      | none => rfl
      | some e => rfl
  · intro s
    simp [squeue_cancel]

/-- C6 witness: a cancelled job (tag 1) absent from the squeue output is
synthesized as `CANCELLED` with exit code 0. -/
theorem squeue_poll_unmatched_job_witness :
    squeue_poll_job [] (fun _ => []) [] [1]
      [{ jobid := "7", state := "PENDING", nodespec := "", reason := "none" }]
      { defaultJob with jobid := some 42, tag := 1 } =
      .ok { defaultJob with
            jobid := some 42, tag := 1,
            state := "CANCELLED", exitcode := some 0 } := by
  have h := (squeue_poll_unmatched_job [] (fun _ => []) [] [1]
    [{ jobid := "7", state := "PENDING", nodespec := "", reason := "none" }]
    { defaultJob with jobid := some 42, tag := 1 } (by decide)).1
  exact h

theorem search_jobid_first (cs : List Char) (n : Nat)
    (h : search_jobid cs = some n) :
    ∃ i, match_jobid_at (cs.drop i) = some n ∧
      ∀ j, j < i → match_jobid_at (cs.drop j) = none := by
  induction cs with
  | nil => simp [search_jobid] at h
  | cons c cs' ih =>
    unfold search_jobid at h
    cases hm : match_jobid_at (c :: cs') with
    | some m =>
      rw [hm] at h
      cases h
      exact ⟨0, hm, fun j hj => absurd hj (Nat.not_lt_zero j)⟩
    | none =>
      rw [hm] at h
      rcases ih h with ⟨i, h1, h2⟩
      refine ⟨i + 1, by simpa using h1, fun j hj => ?_⟩
      cases j with
      | zero => exact hm
      | succ k => simpa using h2 k (Nat.lt_of_succ_lt_succ hj)

/-- C7: `submit` parses the `sbatch` stdout; when the stdout contains a
match of `Submitted batch job (\d+)`, the id stored into `job.jobid` is the
one found at the leftmost matching position (no earlier position matches),
the per-job `update_state_count` entry becomes 0 and the `submit_time` entry
becomes the current time, with every other job field unchanged; when there
is no match, `submit` raises (the *SubmissionFailure* kind of the spec) and
returns no updated job, leaving the job fields unchanged. -/
theorem submit_parses_sbatch_output (job : Job) (stdout : String) (now : Nat) :
    (∀ id, search_jobid stdout.data = some id →
      submit job stdout now = .ok ({ job with jobid := some id }, 0, now) ∧
      ∃ i, match_jobid_at (stdout.data.drop i) = some id ∧
        ∀ j, j < i → match_jobid_at (stdout.data.drop j) = none) ∧
    (search_jobid stdout.data = none →
      submit job stdout now =
        .error "could not retrieve the job id of the submitted job") := by
  constructor
  · intro id hid
    refine ⟨?_, search_jobid_first stdout.data id hid⟩
    unfold submit
    rw [hid]
  · intro hnone
    unfold submit
    rw [hnone]

/-- C7 witness: a concrete `sbatch` stdout yields job id 42, a zero update
count and the submission time. -/
theorem submit_parses_sbatch_output_witness :
    submit defaultJob "Submitted batch job 42\n" 100 =
      .ok ({ defaultJob with jobid := some 42 }, 0, 100) :=
  ((submit_parses_sbatch_output defaultJob "Submitted batch job 42\n" 100).1
    42 (by decide)).1

/-- C5: `_check_and_cancel` on a reason line splitting into
`(reason, details)` at the first comma: when the reason is
`ReqNodeNotAvail` and the details parse as `UnavailableNodes:<names>` with a
non-empty name list, it queries the named nodes and returns without
cancelling when none of them is down; with an empty name list it also
returns without cancelling; for any other reason of the cancel-reason set,
and for `ReqNodeNotAvail` with some queried node down, it cancels the job
and raises `JobBlocked` whose message carries the reason and, when present,
the details. -/
theorem check_and_cancel_policy (reasons : List String)
    (getNodes : String → List SlurmNode) (descr reason : String)
    (d : Option String) (hsplit : split_first_comma descr = (reason, d)) :
    (reason = "ReqNodeNotAvail" → ∀ dd names, d = some dd → dd ≠ "" →
      parse_unavailable_nodes dd = some names → names ≠ "" →
      (getNodes names).any SlurmNode.is_down = false →
      check_and_cancel reasons getNodes descr = .noCancel) ∧
    (reason = "ReqNodeNotAvail" → ∀ dd, d = some dd → dd ≠ "" →
      parse_unavailable_nodes dd = some "" →
      check_and_cancel reasons getNodes descr = .noCancel) ∧
    (reasons.contains reason = true → reason ≠ "ReqNodeNotAvail" →
      check_and_cancel reasons getNodes descr =
        .blocked (blocked_msg_start ++ reason ++ details_suffix d)) ∧
    (reasons.contains reason = true → reason = "ReqNodeNotAvail" →
      ∀ dd names, d = some dd → dd ≠ "" →
      parse_unavailable_nodes dd = some names → names ≠ "" →
      (getNodes names).any SlurmNode.is_down = true →
      check_and_cancel reasons getNodes descr =
        .blocked (blocked_msg_start ++ reason ++ details_suffix (some dd))) := by
  refine ⟨?_, ?_, ?_, ?_⟩
  · intro hreq dd names hd hdd hparse hnames hdown
    subst hreq hd
    unfold check_and_cancel
    rw [hsplit]
    dsimp only
    cases hc : reasons.contains "ReqNodeNotAvail" with
    | false => rfl
    | true =>
      simp only [if_true, beq_self_eq_true, hparse, hdown]
      simp [hdd, hnames]
  · intro hreq dd hd hdd hparse
    subst hreq hd
    unfold check_and_cancel
    rw [hsplit]
    dsimp only
    cases hc : reasons.contains "ReqNodeNotAvail" with
    | false => rfl
    | true =>
      simp only [if_true, beq_self_eq_true, hparse]
      simp [hdd]
  · intro hc hne
    unfold check_and_cancel
    rw [hsplit]
    dsimp only
    rw [hc]
    have hbeq : (reason == "ReqNodeNotAvail") = false := by
      simpa using hne
    simp [hbeq]
  · intro hc hreq dd names hd hdd hparse hnames hdown
    subst hreq hd
    unfold check_and_cancel
    rw [hsplit]
    dsimp only
    rw [hc]
    simp only [beq_self_eq_true, if_true, hparse, hdown]
    simp [hdd, hnames]

/-- C5 witness: the unrecoverable reason `PartitionDown` triggers a cancel
and a `JobBlocked` error naming the reason. -/
theorem check_and_cancel_policy_witness :
    check_and_cancel (cancel_reasons false) (fun _ => []) "PartitionDown" =
      .blocked (blocked_msg_start ++ "PartitionDown") := by
  have h := (check_and_cancel_policy (cancel_reasons false) (fun _ => [])
    "PartitionDown" "PartitionDown" none rfl).2.2.1 (by decide) (by decide)
  exact h

theorem py_max_spec (x : Nat) (xs : List Nat) :
    (∀ y ∈ x :: xs, y ≤ py_max (x :: xs)) ∧ py_max (x :: xs) ∈ x :: xs := by
  induction xs generalizing x with
  | nil => simp [py_max]
  | cons y ys ih =>
    rcases ih (max x y) with ⟨hb, hm⟩
    have hstep : py_max (x :: y :: ys) = py_max (max x y :: ys) := rfl
    constructor
    · intro z hz
      rw [hstep]
      rcases List.mem_cons.mp hz with rfl | hz'
      · exact le_trans (le_max_left z y) (hb _ (List.mem_cons_self _ _))
      · rcases List.mem_cons.mp hz' with rfl | hz''
        · exact le_trans (le_max_right x z) (hb _ (List.mem_cons_self _ _))
        · exact hb z (List.mem_cons_of_mem _ hz'')
    · rw [hstep]
      rcases List.mem_cons.mp hm with heq | hmem
      · rw [heq]
        rcases max_choice x y with hx | hy
        · rw [hx]
          exact List.mem_cons_self _ _
        · rw [hy]
          exact List.mem_cons_of_mem _ (List.mem_cons_self _ _)
      · exact List.mem_cons_of_mem _ (List.mem_cons_of_mem _ hmem)

theorem set_nodelist_fields (g : String → List SlurmNode) (j : Job)
    (ns : String) :
    (set_nodelist g j ns).state = j.state ∧
    (set_nodelist g j ns).exitcode = j.exitcode := by
  unfold set_nodelist
  split
  · exact ⟨rfl, rfl⟩
  · split
    · exact ⟨rfl, rfl⟩
    · exact ⟨rfl, rfl⟩

/-- C2: in the poll of the sacct backend, for a job whose id has matching sacct
lines (`info ≠ []`), `exitcode` is reassigned only when
`slurm_state_completed` holds of the freshly joined state (in particular it
is untouched when the state is not completed, and also when a
`JobBlockedError` escapes from `_cancel_if_blocked`), and when assigned it
equals the maximum of the sub-job exit codes: an upper bound of all matched
exit codes that is itself one of them. -/
theorem sacct_poll_exitcode (reasons : List String)
    (getNodes : String → List SlurmNode) (cancelling : Bool)
    (squeue_out : String) (u : Nat) (job : Job) (info : List SacctRecord)
    (hinfo : info ≠ []) :
    (∀ j', poll_update reasons getNodes cancelling squeue_out u job info =
        .ok j' →
      (slurm_state_completed j'.state = false → j'.exitcode = job.exitcode) ∧
      (slurm_state_completed j'.state = true →
        j'.exitcode = some (py_max (info.map SacctRecord.exitcode)) ∧
        (∀ r ∈ info, r.exitcode ≤ py_max (info.map SacctRecord.exitcode)) ∧
        py_max (info.map SacctRecord.exitcode) ∈
          info.map SacctRecord.exitcode)) ∧
    (∀ msg j1, poll_update reasons getNodes cancelling squeue_out u job info =
        .error (msg, j1) →
      j1.exitcode = job.exitcode) := by
  cases info with
  | nil => exact absurd rfl hinfo
  | cons i is =>
    unfold poll_update
    dsimp only
    cases hcb : (if u % 10 == 0 then
        cancel_if_blocked reasons getNodes cancelling squeue_out
          (py_join "," ((i :: is).map SacctRecord.state))
      else none) with
    | some msg =>
      refine ⟨fun j' hj' => Except.noConfusion hj', fun msg' j1 hj1 => ?_⟩
      injection hj1 with h
      injection h with h1 h2
      rw [← h2]
    | none =>
      refine ⟨fun j' hj' => ?_, fun msg' j1 hj1 => Except.noConfusion hj1⟩
      injection hj' with h
      by_cases hcomp :
          slurm_state_completed (py_join "," ((i :: is).map SacctRecord.state)) = true
      · rw [if_pos hcomp] at h
        rcases set_nodelist_fields getNodes
          { job with
            state := py_join "," ((i :: is).map SacctRecord.state),
            exitcode := some (py_max ((i :: is).map SacctRecord.exitcode)) }
          (py_join "," ((i :: is).map SacctRecord.nodespec)) with ⟨hs, he⟩
        rw [h] at hs he
        constructor
        · intro hfalse
          rw [hs] at hfalse
          rw [hcomp] at hfalse
          cases hfalse
        · intro _
          refine ⟨he, fun r hr => ?_, ?_⟩
          · rcases py_max_spec i.exitcode (is.map SacctRecord.exitcode) with ⟨hb, -⟩
            have : r.exitcode ∈ i.exitcode :: is.map SacctRecord.exitcode := by
              rcases List.mem_cons.mp hr with rfl | hr'
              · exact List.mem_cons_self _ _
              · exact List.mem_cons_of_mem _ (List.mem_map_of_mem _ hr')
            exact hb _ this
          · rcases py_max_spec i.exitcode (is.map SacctRecord.exitcode) with ⟨-, hm⟩
            exact hm
      · rw [if_neg hcomp] at h
        rcases set_nodelist_fields getNodes
          { job with state := py_join "," ((i :: is).map SacctRecord.state) }
          (py_join "," ((i :: is).map SacctRecord.nodespec)) with ⟨hs, he⟩
        rw [h] at hs he
        constructor
        · intro _
          exact he
        · intro htrue
          rw [hs] at htrue
          exact absurd htrue hcomp

/-- C2 witness: one completed sacct line gives exit code 0 through an
actual poll run. -/
theorem sacct_poll_exitcode_witness :
    poll_update [] (fun _ => []) false "" 1
      { defaultJob with jobid := some 42, nodelist := some [] }
      [{ jobid := "42", state := "COMPLETED", exitcode := 0, signal := 0,
         nodespec := "nid001" }] =
      .ok { defaultJob with
            jobid := some 42, nodelist := some [],
            state := "COMPLETED", exitcode := some 0 } ∧
    ({ defaultJob with
       jobid := some 42, nodelist := some [],
       state := "COMPLETED", exitcode := some 0 } : Job).exitcode = some 0 := by
  constructor
  · rfl
  · exact (((sacct_poll_exitcode [] (fun _ => []) false "" 1
      { defaultJob with jobid := some 42, nodelist := some [] }
      [{ jobid := "42", state := "COMPLETED", exitcode := 0, signal := 0,
         nodespec := "nid001" }] (by decide)).1
      { defaultJob with
        jobid := some 42, nodelist := some [],
        state := "COMPLETED", exitcode := some 0 } rfl).2 (by decide)).1

theorem format_option_some_ne_empty (v b a : String) :
    format_option (some v) b a ≠ "" := by
  intro h
  have h2 := congrArg String.length h
  simp [format_option, String.length_append, sbatch_marker] at h2
  exact absurd h2.1 (by decide)

theorem nodes_lines_isSome_iff (nt ntpn : Option Nat) :
    (nodes_lines true nt ntpn).isSome = true ↔
      (∃ a, nt = some a) ∧ ∃ b, ntpn = some b ∧ b ≠ 0 := by
  cases nt with
  | none => simp [nodes_lines]
  | some a =>
    cases ntpn with
    | none => simp [nodes_lines]
    | some b =>
      by_cases hb : b = 0
      · subst hb
        simp [nodes_lines]
      · simp [nodes_lines, hb]

/-- C10: with the `use_nodes_option` setting active, `emit_preamble`
computes `num_tasks // num_tasks_per_node` with no guard, so it returns a
preamble exactly when both `num_tasks` and `num_tasks_per_node` are set and
the latter is non-zero (and then the preamble carries the corresponding
`--nodes` directive); when either field is unset the computation fails with
an error (`none`, the uncaught `TypeError`) instead of returning a
preamble. -/
theorem emit_preamble_nodes_option (job : Job) :
    ((emit_preamble true job).isSome = true ↔
      (∃ nt, job.num_tasks = some nt) ∧
      ∃ ntpn, job.num_tasks_per_node = some ntpn ∧ ntpn ≠ 0) ∧
    (∀ nt ntpn pre, job.num_tasks = some nt →
      job.num_tasks_per_node = some ntpn → ntpn ≠ 0 →
      emit_preamble true job = some pre →
      format_option (some (toString (nt / ntpn))) "--nodes=" "" ∈ pre) ∧
    ((job.num_tasks = none ∨ job.num_tasks_per_node = none) →
      emit_preamble true job = none) := by
  have hsome : (emit_preamble true job).isSome = (preamble_base true job).isSome := by
    unfold emit_preamble
    cases preamble_base true job with
    | none => rfl
    | some base => rfl
  have hbase : (preamble_base true job).isSome =
      (nodes_lines true job.num_tasks job.num_tasks_per_node).isSome := by
    unfold preamble_base
    cases nodes_lines true job.num_tasks job.num_tasks_per_node with
    | none => rfl
    | some np => rfl
  refine ⟨?_, ?_, ?_⟩
  · rw [hsome, hbase]
    exact nodes_lines_isSome_iff job.num_tasks job.num_tasks_per_node
  · intro nt ntpn pre h1 h2 h3 hpre
    have hnl : nodes_lines true job.num_tasks job.num_tasks_per_node =
        some [format_option (some (toString (nt / ntpn))) "--nodes=" ""] := by
      rw [h1, h2]
      simp [nodes_lines, h3]
    unfold emit_preamble preamble_base at hpre
    rw [hnl] at hpre
    dsimp only at hpre
    cases hpre
    apply List.mem_filter.mpr
    constructor
    · apply List.mem_append_left
      apply List.mem_append_left
      apply List.mem_append_left
      apply List.mem_append_left
      apply List.mem_append_right
      exact List.mem_singleton.mpr rfl
    · simpa using format_option_some_ne_empty _ _ _
  · intro hor
    have hnl : nodes_lines true job.num_tasks job.num_tasks_per_node = none := by
      rcases hor with h | h
      · rw [h]
        cases job.num_tasks_per_node <;> rfl
      · rw [h]
        cases job.num_tasks <;> rfl
    unfold emit_preamble preamble_base
    rw [hnl]

theorem prefix_rstrip (p l : List Char) (hp : p <+: l)
    (hnw : ∀ c ∈ p, c.isWhitespace = false) : p <+: rstrip_chars l := by
  induction l generalizing p with
  | nil =>
    rw [List.prefix_nil.mp hp]
    exact nil_prefix_of
  | cons c cs ih =>
    cases p with
    | nil => exact nil_prefix_of
    | cons a p' =>
      rcases List.cons_prefix_cons.mp hp with ⟨rfl, hp'⟩
      have ha : a.isWhitespace = false := hnw a (List.mem_cons_self _ _)
      have ih' := ih p' hp' (fun x hx => hnw x (List.mem_cons_of_mem _ hx))
      unfold rstrip_chars
      cases hr : rstrip_chars cs with
      | nil =>
        rw [hr] at ih'
        rw [List.prefix_nil.mp ih']
        simp [ha]
      | cons r rs =>
        exact List.cons_prefix_cons.mpr ⟨rfl, hr ▸ ih'⟩

theorem swc_format_option_false (var : Option String) (before after : String)
    (h1 : constraint_marker.data.isPrefixOf ("#SBATCH " ++ before).data = false)
    (h2 : ("#SBATCH " ++ before).data.isPrefixOf constraint_marker.data = false) :
    starts_with_constraint (format_option var before after) = false := by
  cases var with
  | none =>
    show starts_with_constraint "" = false
    decide
  | some v =>
    unfold starts_with_constraint py_startswith format_option
    have hdata : (sbatch_marker ++ " " ++ (before ++ (v ++ after))).data
        = ("#SBATCH " ++ before).data ++ (v.data ++ after.data) := by
      simp only [String.data_append, sbatch_marker]
      rw [show ("#SBATCH" : String).data ++ (" " : String).data
        = ("#SBATCH " : String).data from rfl]
      rw [← List.append_assoc]
    rw [hdata]
    cases hb : constraint_marker.data.isPrefixOf
        (("#SBATCH " ++ before).data ++ (v.data ++ after.data)) with
    | false => rfl
    | true =>
      exfalso
      have hpre := isPrefixOf_true_iff.mp hb
      rcases prefix_total_of_common hpre (List.prefix_append _ _)
        with hx | hy
      · have hx' := isPrefixOf_true_iff.mpr hx
        rw [h1] at hx'
        exact Bool.noConfusion hx'
      · have hy' := isPrefixOf_true_iff.mpr hy
        rw [h2] at hy'
        exact Bool.noConfusion hy'

theorem swc_marker_line_false (opt : String)
    (h : is_constraint_prefixed opt = false) :
    starts_with_constraint (sbatch_marker ++ " " ++ opt) = false := by
  unfold starts_with_constraint py_startswith
  have hdata : (sbatch_marker ++ " " ++ opt).data
      = ("#SBATCH " : String).data ++ opt.data := by
    simp only [String.data_append, sbatch_marker]
    rw [show ("#SBATCH" : String).data ++ (" " : String).data
      = ("#SBATCH " : String).data from rfl]
  rw [hdata]
  cases hb : constraint_marker.data.isPrefixOf
      (("#SBATCH " : String).data ++ opt.data) with
  | false => rfl
  | true =>
    exfalso
    have hpre := isPrefixOf_true_iff.mp hb
    rw [show constraint_marker.data
      = ("#SBATCH " : String).data ++ ("--constraint=" : String).data from rfl]
      at hpre
    have h13 : ("--constraint=" : String).data <+: opt.data :=
      (List.prefix_append_right_inj _).mp hpre
    have h12 : ("--constraint" : String).data <+: opt.data :=
      List.IsPrefix.trans (by decide) h13
    have hdrop : opt.data.dropWhile Char.isWhitespace = opt.data := by
      rcases h13 with ⟨t, ht⟩
      rw [← ht]
      rfl
    have hstrip : ("--constraint" : String).data <+: (py_strip opt).data := by
      unfold py_strip
      rw [hdrop]
      exact prefix_rstrip _ _ h12 (by decide)
    have : is_constraint_prefixed opt = true := by
      unfold is_constraint_prefixed py_startswith
      rw [isPrefixOf_true_iff.mpr hstrip]
      simp
    rw [h] at this
    exact Bool.noConfusion this

theorem swc_constraint_line_true (v after : String) :
    starts_with_constraint (format_option (some v) "--constraint=" after) = true := by
  unfold starts_with_constraint py_startswith format_option
  have hdata : (sbatch_marker ++ " " ++ (("--constraint=" : String) ++ (v ++ after))).data
      = constraint_marker.data ++ (v.data ++ after.data) := by
    simp only [String.data_append, sbatch_marker]
    rw [show constraint_marker.data = ("#SBATCH" : String).data ++
      ((" " : String).data ++ ("--constraint=" : String).data) from rfl]
    simp [List.append_assoc]
  rw [hdata]
  exact isPrefixOf_true_iff.mpr (List.prefix_append _ _)

theorem swc_ne_empty (a : String) (h : starts_with_constraint a = true) :
    a ≠ "" := by
  intro he
  subst he
  exact absurd h (by decide)

theorem countP_filter_ne_empty (L : List String) :
    (L.filter (fun l => l != "")).countP starts_with_constraint =
      L.countP starts_with_constraint := by
  rw [List.countP_filter]
  apply List.countP_congr
  intro a _
  cases hswc : starts_with_constraint a
  · simp [hswc]
  · simp [hswc, swc_ne_empty a hswc]

theorem countP_access_lines (access : List String) :
    (access_lines access).countP starts_with_constraint = 0 := by
  rw [List.countP_eq_zero]
  intro l hl
  unfold access_lines at hl
  rcases List.mem_filterMap.mp hl with ⟨opt, _, hmap⟩
  by_cases hc : is_constraint_prefixed opt
  · rw [if_pos hc] at hmap
    exact Option.noConfusion hmap
  · rw [if_neg hc] at hmap
    injection hmap with hmap'
    rw [← hmap']
    simp [swc_marker_line_false opt (Bool.of_not_eq_true hc)]

theorem countP_option_lines (opts : List String)
    (hopts : ∀ opt ∈ opts, py_startswith opt constraint_marker = false) :
    (option_lines opts).countP starts_with_constraint = 0 := by
  rw [List.countP_eq_zero]
  intro l hl
  unfold option_lines at hl
  rcases List.mem_filterMap.mp hl with ⟨opt, hopt, hmap⟩
  by_cases hc : is_constraint_prefixed opt
  · rw [if_pos hc] at hmap
    exact Option.noConfusion hmap
  · rw [if_neg hc] at hmap
    by_cases hh : hash_directive_match opt
    · rw [if_pos hh] at hmap
      injection hmap with hmap'
      rw [← hmap']
      have : starts_with_constraint opt = false := hopts opt hopt
      simp [this]
    · rw [if_neg hh] at hmap
      injection hmap with hmap'
      rw [← hmap']
      simp [swc_marker_line_false opt (Bool.of_not_eq_true hc)]

theorem not_swc_format_option (var : Option String) (before after : String)
    (h1 : constraint_marker.data.isPrefixOf ("#SBATCH " ++ before).data = false)
    (h2 : ("#SBATCH " ++ before).data.isPrefixOf constraint_marker.data = false) :
    ¬ starts_with_constraint (format_option var before after) = true := by
  rw [swc_format_option_false var before after h1 h2]
  exact Bool.noConfusion

theorem nodes_lines_no_constraint (u : Bool) (nt ntpn : Option Nat)
    (np : List String) (h : nodes_lines u nt ntpn = some np)
    (l : String) (hl : l ∈ np) : ¬ starts_with_constraint l = true := by
  unfold nodes_lines at h
  cases u with
  | false =>
    injection h with h'
    rw [← h'] at hl
    cases hl
  | true =>
    rw [if_pos rfl] at h
    cases nt with
    | none => exact Option.noConfusion h
    | some a =>
      cases ntpn with
      | none => exact Option.noConfusion h
      | some b =>
        dsimp only at h
        by_cases hb : b = 0
        · rw [if_pos hb] at h
          exact Option.noConfusion h
        · rw [if_neg hb] at h
          injection h with h'
          rw [← h'] at hl
          rcases List.mem_singleton.mp hl with rfl
          exact not_swc_format_option _ _ _ (by decide) (by decide)

theorem countP_preamble_base (u : Bool) (job : Job) (base : List String)
    (hb : preamble_base u job = some base) :
    base.countP starts_with_constraint = 0 := by
  unfold preamble_base at hb
  cases hnl : nodes_lines u job.num_tasks job.num_tasks_per_node with
  | none =>
    rw [hnl] at hb
    exact Option.noConfusion hb
  | some np =>
    rw [hnl] at hb
    dsimp only at hb
    injection hb with hb'
    rw [← hb']
    rw [List.countP_eq_zero]
    intro l hl
    simp only [List.mem_append] at hl
    rcases hl with ((hfirst | htime) | hexcl) | hnp
    · simp only [List.mem_cons, List.not_mem_nil, or_false] at hfirst
      rcases hfirst with rfl | rfl | rfl | rfl | rfl | rfl | rfl | rfl | rfl |
        rfl | rfl | rfl | rfl
      all_goals exact not_swc_format_option _ _ _ (by decide) (by decide)
    · cases htl : job.time_limit with
      | none =>
        rw [htl] at htime
        cases htime
      | some t =>
        rw [htl] at htime
        rcases List.mem_singleton.mp htime with rfl
        exact not_swc_format_option _ _ _ (by decide) (by decide)
    · by_cases hea : job.sched_exclusive_access
      · rw [if_pos hea] at hexcl
        rcases List.mem_singleton.mp hexcl with rfl
        decide
      · rw [if_neg hea] at hexcl
        cases hexcl
    · exact nodes_lines_no_constraint u job.num_tasks job.num_tasks_per_node
        np hnl l hnp

theorem countP_constraint_lines_ne (job : Job)
    (h : merged_constraints job ≠ []) :
    (constraint_lines job).countP starts_with_constraint = 1 := by
  unfold constraint_lines
  cases hm : merged_constraints job with
  | nil => exact absurd hm h
  | cons c cs => simp [swc_constraint_line_true]

theorem countP_constraint_lines_empty (job : Job)
    (h : merged_constraints job = []) :
    (constraint_lines job).countP starts_with_constraint = 0 := by
  unfold constraint_lines
  rw [h]
  rfl

theorem countP_hint_line (job : Job) :
    ([format_option (hint_value job) "--hint=" ""]).countP
      starts_with_constraint = 0 := by
  have h := swc_format_option_false (hint_value job) "--hint=" ""
    (by decide) (by decide)
  simp [h]

theorem countP_emit_preamble (u : Bool) (job : Job) (pre : List String)
    (hpre : emit_preamble u job = some pre)
    (hopts : ∀ opt ∈ job.options, py_startswith opt constraint_marker = false) :
    pre.countP starts_with_constraint =
      (constraint_lines job).countP starts_with_constraint := by
  unfold emit_preamble at hpre
  cases hb : preamble_base u job with
  | none =>
    rw [hb] at hpre
    exact Option.noConfusion hpre
  | some base =>
    rw [hb] at hpre
    dsimp only at hpre
    injection hpre with h
    rw [← h]
    rw [countP_filter_ne_empty]
    simp only [List.countP_append]
    rw [countP_preamble_base u job base hb, countP_access_lines,
      countP_option_lines job.options hopts, countP_hint_line]
    omega

/-- C4 counterexample: with `sched_access = ["-C a"]` and
`options = ["#SBATCH --constraint=x"]` a constraint is extracted from
`sched_access` ("either is present" holds), yet the emitted preamble
carries *two* `--constraint=` directive lines, not exactly one: the raw
`#`-prefixed option fragment passes the `-C`/`--constraint` skip test and
is emitted verbatim in addition to the merged directive. -/
theorem constraint_directive_not_unique :
    merged_constraints { defaultJob with
      sched_access := ["-C a"], options := ["#SBATCH --constraint=x"] } =
      ["a"] ∧
    emit_preamble false { defaultJob with
      sched_access := ["-C a"], options := ["#SBATCH --constraint=x"] } =
      some ["#SBATCH --constraint=a", "#SBATCH --constraint=x"] ∧
    ((emit_preamble false { defaultJob with
        sched_access := ["-C a"],
        options := ["#SBATCH --constraint=x"] }).getD []).countP
      starts_with_constraint = 2 :=
  ⟨rfl, rfl, rfl⟩

/-- C4 (amended): `emit_preamble` merges constraints: whenever the
last `-C`/`--constraint` value of `sched_access` and/or of `options` is
present, the preamble contains the single merged `--constraint=` directive
whose value is the stripped values joined by `&`, `sched_access` value
first and `options` value second, and — provided no fragment of
`job.options` is itself a raw line beginning with `#SBATCH --constraint=`
(such fragments are emitted verbatim and add further constraint
directives) — exactly one line of the preamble is a `--constraint=`
directive, and none when neither value is present; moreover `sched_access`
fragments starting with `-C`/`--constraint` are never emitted verbatim by
the `sched_access` loop. -/
theorem constraint_merging (u : Bool) (job : Job) (pre : List String)
    (hpre : emit_preamble u job = some pre)
    (hopts : ∀ opt ∈ job.options, py_startswith opt constraint_marker = false) :
    (merged_constraints job ≠ [] →
      format_option (some (py_join "&" (merged_constraints job)))
        "--constraint=" "" ∈ pre ∧
      pre.countP starts_with_constraint = 1) ∧
    (merged_constraints job = [] →
      pre.countP starts_with_constraint = 0) ∧
    (∀ a b, last_flag_value "-C" "--constraint" job.sched_access none = some a →
      a ≠ "" →
      last_flag_value "-C" "--constraint" job.options none = some b → b ≠ "" →
      format_option (some (py_strip a ++ "&" ++ py_strip b))
        "--constraint=" "" ∈ pre) ∧
    (∀ opt ∈ job.sched_access, is_constraint_prefixed opt = true →
      ∀ l ∈ access_lines job.sched_access,
        l ≠ sbatch_marker ++ " " ++ opt) := by
  obtain ⟨base, hbase, hpre_eq⟩ :
      ∃ base, preamble_base u job = some base ∧
        pre = (base ++ access_lines job.sched_access ++ constraint_lines job ++
          [format_option (hint_value job) "--hint=" ""] ++
          option_lines job.options).filter (fun l => l != "") := by
    unfold emit_preamble at hpre
    cases hb : preamble_base u job with
    | none =>
      rw [hb] at hpre
      exact Option.noConfusion hpre
    | some base =>
      rw [hb] at hpre
      dsimp only at hpre
      injection hpre with h
      exact ⟨base, rfl, h.symm⟩
  have hmem : ∀ line ∈ constraint_lines job, line ≠ "" → line ∈ pre := by
    intro line hline hne
    rw [hpre_eq]
    apply List.mem_filter.mpr
    refine ⟨?_, by simpa using hne⟩
    exact List.mem_append_left _
      (List.mem_append_left _ (List.mem_append_right _ hline))
  refine ⟨?_, ?_, ?_, ?_⟩
  · intro hne
    constructor
    · have hcl : format_option (some (py_join "&" (merged_constraints job)))
          "--constraint=" "" ∈ constraint_lines job := by
        unfold constraint_lines
        cases hm : merged_constraints job with
        | nil => exact absurd hm hne
        | cons c cs => exact List.mem_singleton.mpr rfl
      exact hmem _ hcl (format_option_some_ne_empty _ _ _)
    · rw [countP_emit_preamble u job pre hpre hopts]
      exact countP_constraint_lines_ne job hne
  · intro hemp
    rw [countP_emit_preamble u job pre hpre hopts]
    exact countP_constraint_lines_empty job hemp
  · intro a b ha hane hb hbne
    have hm : merged_constraints job = [py_strip a, py_strip b] := by
      unfold merged_constraints
      rw [ha, hb]
      simp [hane, hbne]
    have hcl : format_option (some (py_strip a ++ "&" ++ py_strip b))
        "--constraint=" "" ∈ constraint_lines job := by
      unfold constraint_lines
      rw [hm]
      exact List.mem_singleton.mpr rfl
    exact hmem _ hcl (format_option_some_ne_empty _ _ _)
  · intro opt _ hcp l hl heq
    rcases List.mem_filterMap.mp hl with ⟨opt2, _, hmap⟩
    by_cases hc2 : is_constraint_prefixed opt2 = true
    · rw [if_pos hc2] at hmap
      exact Option.noConfusion hmap
    · rw [if_neg hc2] at hmap
      injection hmap with hmap'
      have h3 : sbatch_marker ++ " " ++ opt2 = sbatch_marker ++ " " ++ opt :=
        hmap'.trans heq
      have h4 := congrArg String.data h3
      simp only [String.data_append] at h4
      have hopt2eq : opt2 = opt := String.ext (List.append_cancel_left h4)
      rw [hopt2eq] at hc2
      exact hc2 hcp

/-- C4 witness: `sched_access = ["-C gpu"]` and
`options = ["--constraint=nvme"]` produce the merged directive
`--constraint=gpu&nvme` in the emitted preamble. -/
theorem constraint_merging_witness :
    format_option (some ("gpu" ++ "&" ++ "nvme")) "--constraint=" "" ∈
      ["#SBATCH --constraint=gpu&nvme"] := by
  have h := (constraint_merging false
    { defaultJob with
      sched_access := ["-C gpu"], options := ["--constraint=nvme"] }
    ["#SBATCH --constraint=gpu&nvme"] rfl (by decide)).2.2.1
    " gpu" "nvme" rfl (by decide) rfl (by decide)
  exact h

/-- C10 witness: with tasks set (4 tasks, 2 per node) the preamble carries
`--nodes=2`; evaluated through `emit_preamble` at a concrete job. -/
theorem emit_preamble_nodes_option_witness :
    format_option (some (toString (4 / 2))) "--nodes=" "" ∈
      ["#SBATCH --ntasks=4", "#SBATCH --ntasks-per-node=2",
       "#SBATCH --nodes=2"] :=
  (emit_preamble_nodes_option
    { defaultJob with num_tasks := some 4, num_tasks_per_node := some 2 }).2.1
    4 2 ["#SBATCH --ntasks=4", "#SBATCH --ntasks-per-node=2",
         "#SBATCH --nodes=2"] rfl rfl (by decide) rfl

end Slurm
